import Mathlib

/-! Shallow embedding of the Pay-demo community-payment ledger core:
the Order entity (`internal/model/orders.go`), the per-user balance
fields of the User aggregate (`internal/model/users.go`), the
gamification-score reconciliation worker and dispatcher
(`internal/apps/user/tasks.go`), and the read-only transaction listing
endpoint (`internal/apps/order/routers.go`).

Monetary values (shopspring `decimal.Decimal`, stored as `numeric(20,2)`)
are modelled as exact rationals `Rat`: the library provides exact
arbitrary-precision fixed-point arithmetic, and the operations used by this
code are construction from an integer (`NewFromInt`), equality (`Equal`),
subtraction (`Sub`) and the SQL additive update `col + ?`, all of which the
rational operations model exactly.

External effects (the datastore, the HTTP score source, the task queue) are
modelled by explicit fault/answer oracles passed in as an environment, and
the datastore content relevant to a task is passed as an explicit state.
-/

namespace Pay

/-- Model of shopspring `decimal.Decimal` (exact fixed-point arithmetic). -/
abbrev Decimal := Rat

/-- Model of `decimal.Decimal.String()` sufficient for the values arising in
this development (all are integer-valued); used only to build order remarks. -/
def decimalString (d : Decimal) : String :=
  if d.den = 1 then toString d.num
  else toString d.num ++ "/" ++ toString d.den

/-- Order lifecycle status domain (`internal/model`, mirrored by the
frontend type `OrderStatus` in the repository's TS API types):
`success | pending | failed | expired | disputing | refund | refused`. -/
inductive OrderStatus where
  | success | pending | failed | expired | disputing | refund | refused
deriving DecidableEq

/-- The string stored in the `status` varchar column for each status. -/
def OrderStatus.str : OrderStatus → String
  | .success => "success"
  | .pending => "pending"
  | .failed => "failed"
  | .expired => "expired"
  | .disputing => "disputing"
  | .refund => "refund"
  | .refused => "refused"

/-- Order type domain: `receive | payment | transfer | community`. -/
inductive OrderType where
  | receive | payment | transfer | community
deriving DecidableEq

/-- The string stored in the `type` varchar column for each order type. -/
def OrderType.str : OrderType → String
  | .receive => "receive"
  | .payment => "payment"
  | .transfer => "transfer"
  | .community => "community"

/-- Instants (`time.Time`) are modelled as abstract ticks. -/
abbrev Time := Nat

/-- `model.Order` (`internal/model/orders.go`).  `orderNo` is the gorm-ignored
(`gorm:"-"`) derived display number, filled in by `AfterFind`, never a column.
`expiresAt` is the expiry instant set by order creators (present in the
repository's API type as `expires_at` and written by the reconciliation
worker).  `createdAt` is the gorm `autoCreateTime` column. -/
structure Order where
  id : Nat
  orderNo : String
  orderName : String
  merchantOrderNo : String
  clientId : String
  payerUsername : String
  payeeUsername : String
  amount : Decimal
  status : OrderStatus
  type : OrderType
  remark : String
  tradeTime : Time
  expiresAt : Time
  createdAt : Time
  updatedAt : Time
deriving DecidableEq

/-- Go `fmt.Sprintf("%018d", id)`: the decimal rendering of `id`, left-padded
with `'0'` to width 18 (wider renderings are left unchanged). -/
def sprintf018 (id : Nat) : String :=
  let s := toString id
  if s.length < 18 then String.mk (List.replicate (18 - s.length) '0') ++ s
  else s

/-- `Order.AfterFind` (`internal/model/orders.go:54`): on every read, derive
the display number from the numeric ID; nothing else is touched. -/
def Order.afterFind (o : Order) : Order :=
  { o with orderNo := sprintf018 o.id }

/-- The balance-ledger fields of `model.User` relevant to the core, plus the
identity fields used by the worker and dispatcher. -/
structure UserRow where
  id : Nat
  username : String
  payScore : Int
  totalReceive : Decimal
  totalPayment : Decimal
  totalTransfer : Decimal
  totalCommunity : Decimal
  availableBalance : Decimal
deriving DecidableEq

/-- The datastore state a single-user reconciliation task can observe and
mutate: the user row it loads, the orders table, and the order
auto-increment counter. -/
structure DBState where
  user : UserRow
  orders : List Order
  nextOrderId : Nat
deriving DecidableEq

/-- Opaque datastore error. -/
structure DBErr where
  code : Nat
deriving DecidableEq

/-- Opaque external-score-source (HTTP) error. -/
structure FetchErr where
  code : Nat
deriving DecidableEq

/-- The errors `HandleUpdateSingleUserGamificationScore` can return, each
wrapping the underlying cause as the Go code wraps it with `fmt.Errorf`. -/
inductive WorkerErr where
  | parsePayload
  | queryUser (e : DBErr)
  | fetchScore (e : FetchErr)
  | updateUser (e : DBErr)
  | createOrder (e : DBErr)
deriving DecidableEq

/-- Environment of one single-user reconciliation task: the parsed payload
(`none` models a `json.Unmarshal` failure), the outcome oracles of the user
lookup, the external score fetch, and the two datastore sub-steps of the
order-creation transaction (`none` = the step succeeds). -/
structure WorkerEnv where
  payload : Option Nat
  findErr : Option DBErr
  fetchScore : Except FetchErr Int
  updateErr : Option DBErr
  insertErr : Option DBErr

/-- The `UpdateColumns` map of the transaction (`tasks.go:130`): set
`total_community` to the new value and apply the SQL additive expressions
`total_receive + diff` and `available_balance + diff`; no other column is
named. -/
def updateColumns (u : UserRow) (newCommunityBalance diff : Decimal) : UserRow :=
  { u with
    totalCommunity := newCommunityBalance
    totalReceive := u.totalReceive + diff
    availableBalance := u.availableBalance + diff }

/-- The remark string of a community-score order (`tasks.go:145`). -/
def communityRemark (oldBal newBal diff : Decimal) : String :=
  "社区积分从 " ++ decimalString oldBal ++ " 更新到 " ++ decimalString newBal
    ++ "，变化 " ++ decimalString diff

/-- The `model.Order` literal built by the worker (`tasks.go:138`), with
`id`/`createdAt`/`updatedAt` filled by the datastore on insert
(autoIncrement / autoCreateTime / autoUpdateTime). -/
def communityOrder (user : UserRow) (oldBal newBal diff : Decimal)
    (now : Time) (id : Nat) : Order :=
  { id := id
    orderNo := ""
    orderName := "社区积分更新"
    merchantOrderNo := ""
    clientId := ""
    payerUsername := "LINUX DO Community"
    payeeUsername := user.username
    amount := diff
    status := .success
    type := .community
    remark := communityRemark oldBal newBal diff
    tradeTime := now
    expiresAt := now
    createdAt := now
    updatedAt := now }

/-- The body of the gorm transaction (`tasks.go:129`): the balance-column
update, then the order insert; either sub-step may fail, in which case the
wrapped error is returned to the transaction runner. -/
def txBody (env : WorkerEnv) (user : UserRow) (newBal diff : Decimal)
    (now : Time) (st : DBState) : Except WorkerErr DBState :=
  match env.updateErr with
  | some e => .error (.updateUser e)
  | none =>
    let st1 : DBState := { st with user := updateColumns st.user newBal diff }
    match env.insertErr with
    | some e => .error (.createOrder e)
    | none =>
      let o := communityOrder user user.totalCommunity newBal diff now st1.nextOrderId
      .ok { st1 with orders := st1.orders ++ [o], nextOrderId := st1.nextOrderId + 1 }

/-- `gorm.DB.Transaction`: run the body atomically — commit its final state
when it returns no error, otherwise roll back to the initial state and
surface the body's error. -/
def transact (st : DBState) (body : DBState → Except WorkerErr DBState) :
    DBState × Except WorkerErr Unit :=
  match body st with
  | .ok st2 => (st2, .ok ())
  | .error e => (st, .error e)

/-- `HandleUpdateSingleUserGamificationScore` (`tasks.go:97`): parse the
payload, load the user, fetch the external gamification score, short-circuit
when it equals the stored `total_community`, otherwise run the
order-creation transaction for the delta.  Returns the observable datastore
state together with the task's result. -/
def handleUpdateSingleUserGamificationScore (env : WorkerEnv) (st : DBState)
    (now : Time) : DBState × Except WorkerErr Unit :=
  match env.payload with
  | none => (st, .error .parsePayload)
  | some _ =>
    match env.findErr with
    | some e => (st, .error (.queryUser e))
    | none =>
      let user := st.user
      match env.fetchScore with
      | .error e => (st, .error (.fetchScore e))
      | .ok score =>
        let newCommunityBalance : Decimal := (score : Int)
        if user.totalCommunity = newCommunityBalance then (st, .ok ())
        else
          let diff := newCommunityBalance - user.totalCommunity
          transact st (txBody env user newCommunityBalance diff now)

/-! Reconciliation dispatcher (`HandleUpdateUserGamificationScores`). -/

/-- Opaque dispatch-sweep error (page query failure or enqueue failure). -/
structure DispatchErr where
  code : Nat
deriving DecidableEq

/-- One task handed to the queue client (`tasks.go:84`): the single-user
reconciliation task for `userId`, to be processed after `delay` seconds,
with `asynq.MaxRetry 3`. -/
structure EnqueuedTask where
  userId : Nat
  delay : Nat
  maxRetry : Nat
deriving DecidableEq

/-- Fault oracles of one dispatch sweep: `pageFetchErr p` injects a failure
into the page-`p` user query, `enqueueErr c` injects a failure into the
`c`-th enqueue call of the sweep (counting from 0). `none` = success. -/
structure DispatchEnv where
  pageFetchErr : Nat → Option DispatchErr
  enqueueErr : Nat → Option DispatchErr

/-- The all-successful environment: no injected datastore or queue faults. -/
def envOk : DispatchEnv := ⟨fun _ => none, fun _ => none⟩

/-- Result of the inner `for _, user := range users` loop over one page. -/
structure PageResult where
  tasks : List EnqueuedTask
  cnt : Nat
  delay : Nat
  err : Option DispatchErr
deriving DecidableEq

/-- The inner loop of the dispatcher (`tasks.go:77`): for each user of the
page, advance `currentDelay` by the per-user `interval`, then enqueue the
single-user task; an enqueue failure returns immediately. `cnt` is the
global enqueue-call counter used to address the fault oracle. -/
def processPage (env : DispatchEnv) (interval : Nat) :
    List UserRow → Nat → Nat → PageResult
  | [], cnt, delay => ⟨[], cnt, delay, none⟩
  | u :: us, cnt, delay =>
    let delay2 := delay + interval
    match env.enqueueErr cnt with
    | some e => ⟨[], cnt, delay2, some e⟩
    | none =>
      let r := processPage env interval us (cnt + 1) delay2
      ⟨⟨u.id, delay2, 3⟩ :: r.tasks, r.cnt, r.delay, r.err⟩

/-- Observable outcome of a dispatch sweep: how many page queries were
issued, which tasks were enqueued (in order), and the error returned, if
any (`none` = the sweep returned `nil`). -/
structure SweepResult where
  queries : Nat
  tasks : List EnqueuedTask
  err : Option DispatchErr
deriving DecidableEq

/-- The paging loop of `HandleUpdateUserGamificationScores` (`tasks.go:60`).
`remaining` is the suffix of the active-user list not yet covered by the
offset (the page-`p` query `LIMIT pageSize OFFSET p*pageSize` over the fixed
login-ordered list returns `(remaining.take pageSize)` when
`remaining = activeUsers.drop (p*pageSize)`).  A page-query failure returns
that error; a page with zero rows breaks the loop; otherwise the page's
users are enqueued and the loop advances to the next page. -/
def dispatchLoop (env : DispatchEnv) (pageSize interval : Nat)
    (remaining : List UserRow) (page cnt delay : Nat) : SweepResult :=
  if (env.pageFetchErr page).isSome then ⟨1, [], env.pageFetchErr page⟩
  else
    let users := remaining.take pageSize
    if h : users.isEmpty then ⟨1, [], none⟩
    else
      let pr := processPage env interval users cnt delay
      if pr.err.isSome then ⟨1, pr.tasks, pr.err⟩
      else
        let r := dispatchLoop env pageSize interval
          (remaining.drop pageSize) (page + 1) pr.cnt pr.delay
        ⟨1 + r.queries, pr.tasks ++ r.tasks, r.err⟩
termination_by remaining.length
decreasing_by
  simp only [List.length_drop]
  have hne : remaining ≠ [] := by
    intro hrem
    exact h (by simp [users, hrem])
  have hp : 0 < pageSize := by
    by_contra hp0
    exact h (by simp [users, Nat.le_zero.mp (Nat.not_lt.mp hp0)])
  have : 0 < remaining.length := List.length_pos.mpr hne
  omega

/-- `HandleUpdateUserGamificationScores` (`tasks.go:45`): sweep the
login-ordered active-user list in pages of 200 (`pageSize := 200`), starting
at page 0, delay 0, scheduling each user's task `interval` seconds after the
previous one. -/
def handleUpdateUserGamificationScores (env : DispatchEnv)
    (activeUsers : List UserRow) (interval : Nat) : SweepResult :=
  dispatchLoop env 200 interval activeUsers 0 0 0

/-! Transaction listing (`internal/apps/order/routers.go`). -/

/-- `TransactionListRequest` (`routers.go:38`); `startTime`/`endTime` model
the optional `*time.Time` fields. -/
structure TransactionListRequest where
  page : Int
  pageSize : Int
  type : String
  status : String
  startTime : Option Time
  endTime : Option Time
deriving DecidableEq

/-- The `oneof` domain of the `type` binding tag. -/
def typeFilterValues : List String :=
  ["receive", "payment", "transfer", "community"]

/-- The `oneof` domain of the `status` binding tag (`routers.go:42`):
`success pending failed disputing refund refunded`. -/
def statusFilterValues : List String :=
  ["success", "pending", "failed", "disputing", "refund", "refunded"]

/-- The gin binding validation of `TransactionListRequest`:
`page` has `min=1`; `page_size` has `min=1,max=100`; `type` and `status`
are `omitempty,oneof=...`; `endTime` is `omitempty,gtfield=StartTime`
(an absent `StartTime` compares as the zero instant). -/
def bindOK (req : TransactionListRequest) : Bool :=
  (1 ≤ req.page)
    && (1 ≤ req.pageSize && req.pageSize ≤ 100)
    && (req.type == "" || typeFilterValues.contains req.type)
    && (req.status == "" || statusFilterValues.contains req.status)
    && (match req.endTime with
        | none => true
        | some e => (req.startTime.getD 0) < e)

/-- The `WHERE payee_username = ? OR payer_username = ?` participant filter
plus the optional status/type/time filters of `ListTransactions`
(`routers.go:70`). -/
def matchesFilters (username : String) (req : TransactionListRequest)
    (o : Order) : Bool :=
  (o.payeeUsername == username || o.payerUsername == username)
    && (req.status == "" || o.status.str == req.status)
    && (req.type == "" || o.type.str == req.type)
    && (match req.startTime with | none => true | some s => s ≤ o.createdAt)
    && (match req.endTime with | none => true | some e => o.createdAt ≤ e)

/-- Insertion step of the `ORDER BY created_at DESC` model. -/
def insertDesc (o : Order) : List Order → List Order
  | [] => [o]
  | x :: xs =>
    if x.createdAt ≤ o.createdAt then o :: x :: xs
    else x :: insertDesc o xs

/-- Model of the SQL `ORDER BY created_at DESC`: some permutation of the
rows that is sorted by `createdAt` descending (ties in an unspecified
order; this model keeps earlier rows first among ties). -/
def sortByCreatedAtDesc (l : List Order) : List Order :=
  l.foldr insertDesc []

/-- `TransactionListResponse` (`routers.go:47`). -/
structure TransactionListResponse where
  total : Nat
  page : Int
  pageSize : Int
  orders : List Order
deriving DecidableEq

/-- HTTP-level failures of `ListTransactions`. -/
inductive ListErr where
  | badRequest
  | internal (e : DBErr)
deriving DecidableEq

/-- `ListTransactions` (`routers.go:61`) over a pure datastore snapshot
`db`: bind-validate the request (rejecting it before any query), build the
filtered base query, run the count query, then the page query ordered by
`created_at DESC` with `OFFSET (page-1)*pageSize LIMIT pageSize` (gorm
applies `AfterFind` to every returned row).  The second component counts
the datastore queries executed. -/
def listTransactions (db : List Order) (username : String)
    (req : TransactionListRequest) :
    Except ListErr TransactionListResponse × Nat :=
  if ¬ bindOK req then (.error .badRequest, 0)
  else
    let base := db.filter (matchesFilters username req)
    let total := base.length
    let offset := (req.page - 1) * req.pageSize
    let pageRows :=
      ((sortByCreatedAtDesc base).drop offset.toNat).take req.pageSize.toNat
    (.ok { total := total, page := req.page, pageSize := req.pageSize
           orders := pageRows.map Order.afterFind }, 2)

/-! Auxiliary definitions used only by the verification. -/

/-- The spec's display-number derivation, written from its words:
`order_no = pad(id, 18, '0')` — the decimal rendering of the ID left-padded
with `'0'` to 18 characters.  Compared against the code's `sprintf018`. -/
def specPad (s : String) (width : Nat) (c : Char) : String :=
  String.mk (List.replicate (width - s.length) c) ++ s

/-- The tasks a fault-free sweep is expected to enqueue for a user list,
starting from accumulated delay `delay`: the `i`-th user's task carries
delay `delay + (i+1)*interval` and max-retry 3. -/
def expectedTasks (interval : Nat) : List UserRow → Nat → List EnqueuedTask
  | [], _ => []
  | u :: us, delay =>
    ⟨u.id, delay + interval, 3⟩ :: expectedTasks interval us (delay + interval)

/-- A concrete user row used by witnesses and counterexamples. -/
def aliceRow : UserRow :=
  { id := 7, username := "alice", payScore := 5, totalReceive := 20
    totalPayment := 3, totalTransfer := 4, totalCommunity := 100
    availableBalance := 250 }

/-- A concrete datastore state holding `aliceRow` and an empty order table. -/
def aliceDB : DBState := ⟨aliceRow, [], 11⟩

/-- A concrete user row with stored `total_community = 50.00`. -/
def bobRow : UserRow :=
  { id := 8, username := "bob", payScore := 1, totalReceive := 60
    totalPayment := 2, totalTransfer := 0, totalCommunity := 50
    availableBalance := 80 }

/-- A concrete datastore state holding `bobRow`. -/
def bobDB : DBState := ⟨bobRow, [], 3⟩

/-- A fault-free worker environment observing an external score of 135. -/
def envScore135 : WorkerEnv := ⟨some 7, none, .ok 135, none, none⟩

/-- A fault-free worker environment observing an external score of 40. -/
def envScore40 : WorkerEnv := ⟨some 8, none, .ok 40, none, none⟩

/-- A concrete order created earlier (creation tick 1). -/
def sampleOrderOld : Order :=
  { id := 1, orderNo := "", orderName := "a", merchantOrderNo := ""
    clientId := "", payerUsername := "alice", payeeUsername := "carol"
    amount := 0, status := .success, type := .transfer, remark := ""
    tradeTime := 1, expiresAt := 1, createdAt := 1, updatedAt := 1 }

/-- A concrete order created later (creation tick 5). -/
def sampleOrderNew : Order :=
  { id := 2, orderNo := "", orderName := "b", merchantOrderNo := ""
    clientId := "", payerUsername := "carol", payeeUsername := "alice"
    amount := 0, status := .pending, type := .receive, remark := ""
    tradeTime := 5, expiresAt := 5, createdAt := 5, updatedAt := 5 }

/-- A concrete order table holding the two sample orders. -/
def sampleDB : List Order := [sampleOrderOld, sampleOrderNew]

/-! Theorems settling the claims. -/

/-- C7: for every Order, the derived display number produced by `AfterFind`
equals the numeric ID rendered in decimal and left-padded with `'0'` to 18
characters; ID 42 yields `"000000000000000042"` and ID 123456789012345678
yields its own 18-digit decimal string unchanged.  (It is computed at read
time: `AfterFind` is the only writer of the gorm-ignored `orderNo` field.) -/
theorem display_number_round_trip :
    (∀ o : Order, o.afterFind.orderNo = specPad (toString o.id) 18 '0')
    ∧ (∀ o : Order, o.id = 42 → o.afterFind.orderNo = "000000000000000042")
    ∧ (∀ o : Order, o.id = 123456789012345678 →
        o.afterFind.orderNo = "123456789012345678") := by
  refine ⟨fun o => ?_, fun o h => ?_, fun o h => ?_⟩
  · show sprintf018 o.id = specPad (toString o.id) 18 '0'
    unfold sprintf018 specPad
    by_cases hlen : (toString o.id).length < 18
    · simp [hlen]
    · have h0 : 18 - (toString o.id).length = 0 := by omega
      simp [hlen, h0]
  · show sprintf018 o.id = _
    rw [h]
    decide
  · show sprintf018 o.id = _
    rw [h]
    decide

/-- C7 witness: the two concrete instances from the spec. -/
theorem display_number_round_trip_witness :
    (Order.afterFind
      { id := 42, orderNo := "", orderName := "", merchantOrderNo := ""
        clientId := "", payerUsername := "", payeeUsername := "", amount := 0
        status := .success, type := .community, remark := "", tradeTime := 0
        expiresAt := 0, createdAt := 0, updatedAt := 0 }).orderNo
      = "000000000000000042" :=
  display_number_round_trip.2.1 _ rfl

/-- C9: a non-empty status filter is accepted iff it is one of
`success pending failed disputing refund refunded`; in particular `expired`
and `refused` (both in the Order status domain) are rejected, while
`refunded` (not in the Order status domain) is accepted. -/
theorem status_filter_domain :
    (∀ s : String, s ≠ "" →
      (bindOK { page := 1, pageSize := 10, type := "", status := s
                startTime := none, endTime := none } = true
        ↔ s ∈ statusFilterValues))
    ∧ bindOK ⟨1, 10, "", "expired", none, none⟩ = false
    ∧ bindOK ⟨1, 10, "", "refused", none, none⟩ = false
    ∧ bindOK ⟨1, 10, "", "refunded", none, none⟩ = true
    ∧ (∀ st : OrderStatus, st.str ≠ "refunded") := by
  refine ⟨fun s hs => ?_, by decide, by decide, by decide, fun st => ?_⟩
  · have hbeq : (s == "") = false := by
      simpa using hs
    simp [bindOK, hbeq, List.contains_iff_exists_mem_beq, beq_iff_eq]
  · cases st <;> simp [OrderStatus.str]

/-- C9 witness: the boundary value `refunded` is accepted and is indeed in
the binding's accepted list. -/
theorem status_filter_domain_witness :
    bindOK { page := 1, pageSize := 10, type := "", status := "refunded"
             startTime := none, endTime := none } = true
      ↔ "refunded" ∈ statusFilterValues :=
  status_filter_domain.1 "refunded" (by decide)

/-- Helper: on the fault-free path with observed score `s` differing from the
stored total, the worker commits exactly the transaction's state: the three
balance columns updated and one community order appended. -/
theorem worker_applies_delta (env : WorkerEnv) (st : DBState) (now : Time)
    (uid : Nat) (s : Int) (hpay : env.payload = some uid)
    (hfind : env.findErr = none) (hscore : env.fetchScore = .ok s)
    (hupd : env.updateErr = none) (hins : env.insertErr = none)
    (hne : st.user.totalCommunity ≠ (s : Rat)) :
    handleUpdateSingleUserGamificationScore env st now =
      ({ user := updateColumns st.user (s : Rat)
            ((s : Rat) - st.user.totalCommunity)
         orders := st.orders
            ++ [communityOrder st.user st.user.totalCommunity (s : Rat)
                  ((s : Rat) - st.user.totalCommunity) now st.nextOrderId]
         nextOrderId := st.nextOrderId + 1 }, .ok ()) := by
  simp only [handleUpdateSingleUserGamificationScore, hpay, hfind, hscore,
    if_neg hne, transact, txBody, hupd, hins]

/-- Helper: when the observed score equals the stored total, the worker
returns success and the datastore is untouched. -/
theorem worker_skips_when_equal (env : WorkerEnv) (st : DBState) (now : Time)
    (uid : Nat) (s : Int) (hpay : env.payload = some uid)
    (hfind : env.findErr = none) (hscore : env.fetchScore = .ok s)
    (heq : st.user.totalCommunity = (s : Rat)) :
    handleUpdateSingleUserGamificationScore env st now = (st, .ok ()) := by
  simp only [handleUpdateSingleUserGamificationScore, hpay, hfind, hscore,
    if_pos heq]

/-- C1: with stored `total_community = 100.00` and observed score 135, one
fault-free run of the single-user reconciliation worker succeeds, appends
exactly one community-type Order of amount 35.00, sets `total_community` to
135.00, increments `total_receive` and `available_balance` by 35.00, and
leaves `total_payment`, `total_transfer` and `pay_score` unchanged. -/
theorem delta_correctness (env : WorkerEnv) (st : DBState) (now : Time)
    (uid : Nat) (hpay : env.payload = some uid) (hfind : env.findErr = none)
    (hscore : env.fetchScore = .ok 135) (hupd : env.updateErr = none)
    (hins : env.insertErr = none) (hcom : st.user.totalCommunity = 100) :
    (handleUpdateSingleUserGamificationScore env st now).2 = .ok ()
    ∧ (handleUpdateSingleUserGamificationScore env st now).1.orders
        = st.orders ++ [communityOrder st.user 100 135 35 now st.nextOrderId]
    ∧ (communityOrder st.user 100 135 35 now st.nextOrderId).type = .community
    ∧ (communityOrder st.user 100 135 35 now st.nextOrderId).amount = 35
    ∧ (handleUpdateSingleUserGamificationScore env st now).1.user.totalCommunity
        = 135
    ∧ (handleUpdateSingleUserGamificationScore env st now).1.user.totalReceive
        = st.user.totalReceive + 35
    ∧ (handleUpdateSingleUserGamificationScore env st now).1.user.availableBalance
        = st.user.availableBalance + 35
    ∧ (handleUpdateSingleUserGamificationScore env st now).1.user.totalPayment
        = st.user.totalPayment
    ∧ (handleUpdateSingleUserGamificationScore env st now).1.user.totalTransfer
        = st.user.totalTransfer
    ∧ (handleUpdateSingleUserGamificationScore env st now).1.user.payScore
        = st.user.payScore := by
  have hne : st.user.totalCommunity ≠ ((135 : Int) : Rat) := by
    rw [hcom]; norm_num
  have hrun := worker_applies_delta env st now uid 135 hpay hfind hscore
    hupd hins hne
  have hcast : ((135 : Int) : Rat) = (135 : Rat) := by norm_num
  have hdiff : ((135 : Int) : Rat) - st.user.totalCommunity = (35 : Rat) := by
    rw [hcom, hcast]; norm_num
  rw [hrun]
  refine ⟨rfl, ?_, rfl, rfl, ?_, ?_, ?_, rfl, rfl, rfl⟩
  · rw [hdiff, hcast, hcom]
  · show ((135 : Int) : Rat) = 135
    exact hcast
  · show st.user.totalReceive + _ = _
    rw [hdiff]
  · show st.user.availableBalance + _ = _
    rw [hdiff]

/-- C1 witness: a concrete run for `aliceRow` (stored total 100, score 135). -/
theorem delta_correctness_witness :
    (handleUpdateSingleUserGamificationScore envScore135 aliceDB 9).1.user.totalCommunity
      = 135
    ∧ (handleUpdateSingleUserGamificationScore envScore135 aliceDB 9).1.orders
        = aliceDB.orders ++ [communityOrder aliceRow 100 135 35 9 11] :=
  ⟨(delta_correctness envScore135 aliceDB 9 7 rfl rfl rfl rfl rfl rfl).2.2.2.2.1,
   (delta_correctness envScore135 aliceDB 9 7 rfl rfl rfl rfl rfl rfl).2.1⟩

/-- Helper: a failure of the balance-column update aborts the transaction:
the datastore rolls back to the initial state and the wrapped error is the
task's result. -/
theorem worker_update_error (env : WorkerEnv) (st : DBState) (now : Time)
    (uid : Nat) (s : Int) (e : DBErr) (hpay : env.payload = some uid)
    (hfind : env.findErr = none) (hscore : env.fetchScore = .ok s)
    (hne : st.user.totalCommunity ≠ (s : Rat))
    (hupd : env.updateErr = some e) :
    handleUpdateSingleUserGamificationScore env st now
      = (st, .error (.updateUser e)) := by
  simp only [handleUpdateSingleUserGamificationScore, hpay, hfind, hscore,
    if_neg hne, transact, txBody, hupd]

/-- Helper: a failure of the order insert aborts the transaction: the
balance update is rolled back and the wrapped error is the task's result. -/
theorem worker_insert_error (env : WorkerEnv) (st : DBState) (now : Time)
    (uid : Nat) (s : Int) (e : DBErr) (hpay : env.payload = some uid)
    (hfind : env.findErr = none) (hscore : env.fetchScore = .ok s)
    (hne : st.user.totalCommunity ≠ (s : Rat))
    (hupd : env.updateErr = none) (hins : env.insertErr = some e) :
    handleUpdateSingleUserGamificationScore env st now
      = (st, .error (.createOrder e)) := by
  simp only [handleUpdateSingleUserGamificationScore, hpay, hfind, hscore,
    if_neg hne, transact, txBody, hupd, hins]

/-- C2: inside the reconciliation worker's order-creation transaction, if
either sub-step fails (the balance-field update or the Order insert), then
afterwards the datastore state — the user's ledger fields and the order
table — is exactly as before the transaction, and the underlying datastore
error (wrapped as the code wraps it) is returned to the caller. -/
theorem transaction_atomicity (env : WorkerEnv) (st : DBState) (now : Time)
    (uid : Nat) (s : Int) (hpay : env.payload = some uid)
    (hfind : env.findErr = none) (hscore : env.fetchScore = .ok s)
    (hne : st.user.totalCommunity ≠ (s : Rat)) :
    (∀ e, env.updateErr = some e →
      handleUpdateSingleUserGamificationScore env st now
        = (st, .error (.updateUser e)))
    ∧ (∀ e, env.updateErr = none → env.insertErr = some e →
      handleUpdateSingleUserGamificationScore env st now
        = (st, .error (.createOrder e))) :=
  ⟨fun e hupd => worker_update_error env st now uid s e hpay hfind hscore hne hupd,
   fun e hupd hins =>
     worker_insert_error env st now uid s e hpay hfind hscore hne hupd hins⟩

/-- C2 witness: fault injection into each sub-step on a concrete state. -/
theorem transaction_atomicity_witness :
    handleUpdateSingleUserGamificationScore ⟨some 7, none, .ok 135, some ⟨5⟩, none⟩
        aliceDB 9 = (aliceDB, .error (.updateUser ⟨5⟩))
    ∧ handleUpdateSingleUserGamificationScore ⟨some 7, none, .ok 135, none, some ⟨6⟩⟩
        aliceDB 9 = (aliceDB, .error (.createOrder ⟨6⟩)) :=
  ⟨(transaction_atomicity ⟨some 7, none, .ok 135, some ⟨5⟩, none⟩ aliceDB 9 7 135
      rfl rfl rfl (by norm_num [aliceDB, aliceRow])).1 ⟨5⟩ rfl,
   (transaction_atomicity ⟨some 7, none, .ok 135, none, some ⟨6⟩⟩ aliceDB 9 7 135
      rfl rfl rfl (by norm_num [aliceDB, aliceRow])).2 ⟨6⟩ rfl rfl⟩

/-- C3: when the externally observed score, converted to decimal, equals the
stored `total_community`, the worker returns success touching nothing; and
after any successful run, a second run with the external score unchanged
leaves the datastore exactly as the first run left it (zero additional
Orders, no balance change). -/
theorem reconciliation_idempotent (env : WorkerEnv) (st : DBState)
    (now now2 : Time) (uid : Nat) (s : Int) (hpay : env.payload = some uid)
    (hfind : env.findErr = none) (hscore : env.fetchScore = .ok s) :
    (st.user.totalCommunity = (s : Rat) →
      handleUpdateSingleUserGamificationScore env st now = (st, .ok ()))
    ∧ ((handleUpdateSingleUserGamificationScore env st now).2 = .ok () →
      handleUpdateSingleUserGamificationScore env
          (handleUpdateSingleUserGamificationScore env st now).1 now2
        = ((handleUpdateSingleUserGamificationScore env st now).1, .ok ())) := by
  refine ⟨fun heq => worker_skips_when_equal env st now uid s hpay hfind hscore heq,
    fun hok => ?_⟩
  by_cases heq : st.user.totalCommunity = (s : Rat)
  · rw [worker_skips_when_equal env st now uid s hpay hfind hscore heq] at hok ⊢
    exact worker_skips_when_equal env st now2 uid s hpay hfind hscore heq
  · cases hupd : env.updateErr with
    | some e =>
      rw [worker_update_error env st now uid s e hpay hfind hscore heq hupd]
        at hok
      exact absurd hok (by simp)
    | none =>
      cases hins : env.insertErr with
      | some e =>
        rw [worker_insert_error env st now uid s e hpay hfind hscore heq
          hupd hins] at hok
        exact absurd hok (by simp)
      | none =>
        rw [worker_applies_delta env st now uid s hpay hfind hscore hupd
          hins heq]
        exact worker_skips_when_equal env _ now2 uid s hpay hfind hscore rfl

/-- C3 witness: a run whose observed score 100 equals the stored total is a
no-op, and a successful 100→135 run followed by an unchanged-score run adds
nothing the second time. -/
theorem reconciliation_idempotent_witness :
    handleUpdateSingleUserGamificationScore ⟨some 7, none, .ok 100, none, none⟩
        aliceDB 9 = (aliceDB, .ok ())
    ∧ handleUpdateSingleUserGamificationScore envScore135
          (handleUpdateSingleUserGamificationScore envScore135 aliceDB 9).1 10
        = ((handleUpdateSingleUserGamificationScore envScore135 aliceDB 9).1,
            .ok ()) :=
  ⟨(reconciliation_idempotent ⟨some 7, none, .ok 100, none, none⟩ aliceDB 9 9 7
      100 rfl rfl rfl).1 (by norm_num [aliceDB, aliceRow]),
   (reconciliation_idempotent envScore135 aliceDB 9 10 7 135 rfl rfl rfl).2
      (by rw [worker_applies_delta envScore135 aliceDB 9 7 135 rfl rfl rfl rfl
        rfl (by norm_num [aliceDB, aliceRow])])⟩

/-- C4 counterexample: with stored `total_community = 50.00` and observed
score 40, the order created by the worker stores amount `-10.00` — the
signed delta — not the magnitude `10.00` the claim asserts. -/
theorem negative_correction_cex :
    ((handleUpdateSingleUserGamificationScore envScore40 bobDB 3).1.orders.map
        Order.amount) = [(-10 : Rat)]
    ∧ ¬ ((-10 : Rat) = (10 : Rat)) := by
  have hne : bobDB.user.totalCommunity ≠ ((40 : Int) : Rat) := by
    norm_num [bobDB, bobRow]
  rw [worker_applies_delta envScore40 bobDB 3 8 40 rfl rfl rfl rfl rfl hne]
  refine ⟨?_, by norm_num⟩
  simp only [bobDB, bobRow, communityOrder, List.nil_append, List.map_cons,
    List.map_nil, List.cons.injEq, and_true]
  norm_num

/-- C4 (amended): with stored `total_community = 50.00` and observed score
40, the worker applies the delta `-10.00` as a decrement to `total_receive`
and `available_balance`, and the created Order's amount field records the
signed delta `-10.00` (a negative stored value), with the change from 50 to
40 described in the Order's remark. -/
theorem negative_correction (env : WorkerEnv) (st : DBState) (now : Time)
    (uid : Nat) (hpay : env.payload = some uid) (hfind : env.findErr = none)
    (hscore : env.fetchScore = .ok 40) (hupd : env.updateErr = none)
    (hins : env.insertErr = none) (hcom : st.user.totalCommunity = 50) :
    (handleUpdateSingleUserGamificationScore env st now).2 = .ok ()
    ∧ (handleUpdateSingleUserGamificationScore env st now).1.user.totalReceive
        = st.user.totalReceive - 10
    ∧ (handleUpdateSingleUserGamificationScore env st now).1.user.availableBalance
        = st.user.availableBalance - 10
    ∧ (handleUpdateSingleUserGamificationScore env st now).1.user.totalCommunity
        = 40
    ∧ (handleUpdateSingleUserGamificationScore env st now).1.orders
        = st.orders ++ [communityOrder st.user 50 40 (-10) now st.nextOrderId]
    ∧ (communityOrder st.user 50 40 (-10) now st.nextOrderId).amount = -10
    ∧ (communityOrder st.user 50 40 (-10) now st.nextOrderId).remark
        = communityRemark 50 40 (-10) := by
  have hne : st.user.totalCommunity ≠ ((40 : Int) : Rat) := by
    rw [hcom]; norm_num
  have hrun := worker_applies_delta env st now uid 40 hpay hfind hscore
    hupd hins hne
  have hcast : ((40 : Int) : Rat) = (40 : Rat) := by norm_num
  have hdiff : ((40 : Int) : Rat) - st.user.totalCommunity = (-10 : Rat) := by
    rw [hcom, hcast]; norm_num
  rw [hrun]
  refine ⟨rfl, ?_, ?_, ?_, ?_, rfl, rfl⟩
  · show st.user.totalReceive + _ = _
    rw [hdiff]; ring
  · show st.user.availableBalance + _ = _
    rw [hdiff]; ring
  · exact hcast
  · rw [hdiff, hcast, hcom]

/-- C4 (amended) witness: the concrete 50→40 run on `bobRow`. -/
theorem negative_correction_witness :
    (handleUpdateSingleUserGamificationScore envScore40 bobDB 3).1.user.totalReceive
      = bobRow.totalReceive - 10
    ∧ (handleUpdateSingleUserGamificationScore envScore40 bobDB 3).1.orders
        = [communityOrder bobRow 50 40 (-10) 3 3] :=
  ⟨(negative_correction envScore40 bobDB 3 8 rfl rfl rfl rfl rfl rfl).2.1,
   (negative_correction envScore40 bobDB 3 8 rfl rfl rfl rfl rfl rfl).2.2.2.2.1⟩

/-- C10: every Order present after a worker run either was already in the
order table or is a community order with status `success`, payer
`"LINUX DO Community"`, the fixed community-score-update name, and trade
time equal to expiry time — on every path through the worker. -/
theorem community_order_invariants (env : WorkerEnv) (st : DBState)
    (now : Time) :
    ∀ o ∈ (handleUpdateSingleUserGamificationScore env st now).1.orders,
      o ∈ st.orders
      ∨ (o.status = .success ∧ o.type = .community
          ∧ o.payerUsername = "LINUX DO Community"
          ∧ o.orderName = "社区积分更新" ∧ o.tradeTime = o.expiresAt) := by
  intro o ho
  unfold handleUpdateSingleUserGamificationScore at ho
  cases hpay : env.payload with
  | none => rw [hpay] at ho; exact Or.inl ho
  | some uid =>
    rw [hpay] at ho
    cases hfind : env.findErr with
    | some e => rw [hfind] at ho; exact Or.inl ho
    | none =>
      rw [hfind] at ho
      cases hscore : env.fetchScore with
      | error e => rw [hscore] at ho; exact Or.inl ho
      | ok s =>
        rw [hscore] at ho
        dsimp only at ho
        by_cases heq : st.user.totalCommunity = (s : Rat)
        · rw [if_pos heq] at ho; exact Or.inl ho
        · rw [if_neg heq] at ho
          cases hupd : env.updateErr with
          | some e =>
            simp only [transact, txBody, hupd] at ho
            exact Or.inl ho
          | none =>
            cases hins : env.insertErr with
            | some e =>
              simp only [transact, txBody, hupd, hins] at ho
              exact Or.inl ho
            | none =>
              simp only [transact, txBody, hupd, hins, List.mem_append,
                List.mem_singleton] at ho
              cases ho with
              | inl h => exact Or.inl h
              | inr h => exact Or.inr (by rw [h]; exact ⟨rfl, rfl, rfl, rfl, rfl⟩)

/-- C10 witness: the order created by a concrete 100→135 run satisfies the
invariants. -/
theorem community_order_invariants_witness :
    communityOrder aliceRow 100 135 35 9 11
        ∈ (handleUpdateSingleUserGamificationScore envScore135 aliceDB 9).1.orders
    ∧ (communityOrder aliceRow 100 135 35 9 11 ∈ aliceDB.orders
        ∨ ((communityOrder aliceRow 100 135 35 9 11).status = .success
            ∧ (communityOrder aliceRow 100 135 35 9 11).type = .community
            ∧ (communityOrder aliceRow 100 135 35 9 11).payerUsername
                = "LINUX DO Community"
            ∧ (communityOrder aliceRow 100 135 35 9 11).orderName = "社区积分更新"
            ∧ (communityOrder aliceRow 100 135 35 9 11).tradeTime
                = (communityOrder aliceRow 100 135 35 9 11).expiresAt)) :=
  by
  have hrun := worker_applies_delta envScore135 aliceDB 9 7 135 rfl rfl rfl rfl
    rfl (by norm_num [aliceDB, aliceRow])
  rw [show ((135 : Int) : Rat) = (135 : Rat) by norm_num] at hrun
  rw [show (135 : Rat) - aliceDB.user.totalCommunity = 35 by
    norm_num [aliceDB, aliceRow]] at hrun
  have hmem : communityOrder aliceRow 100 135 35 9 11
      ∈ (handleUpdateSingleUserGamificationScore envScore135 aliceDB 9).1.orders := by
    rw [hrun]
    exact List.mem_append_right _ (List.mem_singleton.mpr rfl)
  exact ⟨hmem, community_order_invariants envScore135 aliceDB 9 _ hmem⟩

/-- Helper: `expectedTasks` produces one task per user. -/
theorem expectedTasks_length (k : Nat) (l : List UserRow) :
    ∀ d, (expectedTasks k l d).length = l.length := by
  induction l with
  | nil => intro d; rfl
  | cons u us ih => intro d; simp [expectedTasks, ih]

/-- Helper: `expectedTasks` splits over list append, carrying the delay. -/
theorem expectedTasks_append (k : Nat) (l1 l2 : List UserRow) :
    ∀ d, expectedTasks k (l1 ++ l2) d
      = expectedTasks k l1 d ++ expectedTasks k l2 (d + l1.length * k) := by
  induction l1 with
  | nil => intro d; simp [expectedTasks]
  | cons u us ih =>
    intro d
    simp only [List.cons_append, expectedTasks, List.append_eq, ih (d + k),
      List.length_cons]
    have : d + k + us.length * k = d + (us.length + 1) * k := by ring
    rw [this]

/-- Helper: the `i`-th expected task carries delay `d + (i+1)*k`. -/
theorem expectedTasks_get (k : Nat) (l : List UserRow) :
    ∀ d i (h : i < (expectedTasks k l d).length),
      ((expectedTasks k l d).get ⟨i, h⟩).delay = d + (i + 1) * k := by
  induction l with
  | nil => intro d i h; simp [expectedTasks] at h
  | cons u us ih =>
    intro d i h
    cases i with
    | zero => simp [expectedTasks]
    | succ i =>
      simp only [expectedTasks, List.get_cons_succ]
      rw [ih (d + k) i]
      ring

/-- Helper: when no enqueue in range fails, the page loop enqueues one task
per user with delays advancing by `k`, and returns no error. -/
theorem processPage_ok (env : DispatchEnv) (k : Nat) (l : List UserRow) :
    ∀ cnt delay,
    (∀ j, j < l.length → env.enqueueErr (cnt + j) = none) →
    processPage env k l cnt delay
      = ⟨expectedTasks k l delay, cnt + l.length, delay + l.length * k, none⟩ := by
  induction l with
  | nil => intro cnt delay _; simp [processPage, expectedTasks]
  | cons u us ih =>
    intro cnt delay h
    have h0 : env.enqueueErr cnt = none := by simpa using h 0 (by simp)
    rw [processPage, h0]
    rw [ih (cnt + 1) (delay + k) ?_]
    · simp only [expectedTasks, List.length_cons, PageResult.mk.injEq,
        true_and, and_true]
      constructor
      · omega
      · ring
    · intro j hj
      have := h (j + 1) (by simpa using Nat.succ_lt_succ hj)
      rwa [show cnt + (j + 1) = cnt + 1 + j by omega] at this

/-- Helper: when the first enqueue failure of the page is at local index
`m`, the page loop stops there: `m` tasks enqueued, the error returned. -/
theorem processPage_fail (env : DispatchEnv) (k : Nat) (l : List UserRow) :
    ∀ cnt delay m e,
    m < l.length →
    (∀ j, j < m → env.enqueueErr (cnt + j) = none) →
    env.enqueueErr (cnt + m) = some e →
    (processPage env k l cnt delay).err = some e
      ∧ (processPage env k l cnt delay).tasks.length = m := by
  induction l with
  | nil => intro _ _ m _ hm; simp at hm
  | cons u us ih =>
    intro cnt delay m e hm hnone hsome
    cases m with
    | zero =>
      have h0 : env.enqueueErr cnt = some e := by simpa using hsome
      rw [processPage, h0]
      exact ⟨rfl, rfl⟩
    | succ m =>
      have h0 : env.enqueueErr cnt = none := by
        simpa using hnone 0 (Nat.succ_pos m)
      rw [processPage, h0]
      have hrec := ih (cnt + 1) (delay + k) m e
        (by simpa using Nat.lt_of_succ_lt_succ hm)
        (fun j hj => by
          have := hnone (j + 1) (Nat.succ_lt_succ hj)
          rwa [show cnt + (j + 1) = cnt + 1 + j by omega] at this)
        (by rwa [show cnt + (m + 1) = cnt + 1 + m by omega] at hsome)
      exact ⟨hrec.1, by simp [hrec.2]⟩

/-- Helper: a fault-free sweep issues `ceil(N/P) + 1` page queries (the
last returning zero rows), enqueues all `N` expected tasks, and returns no
error. -/
theorem dispatchLoop_ok (P k : Nat) (hP : 0 < P) :
    ∀ (n : Nat) (l : List UserRow), l.length ≤ n → ∀ page cnt delay,
    dispatchLoop envOk P k l page cnt delay
      = ⟨(l.length + P - 1) / P + 1, expectedTasks k l delay, none⟩ := by
  intro n
  induction n with
  | zero =>
    intro l hl page cnt delay
    have hnil : l = [] := List.length_eq_zero.mp (Nat.le_zero.mp hl)
    subst hnil
    rw [dispatchLoop]
    simp [envOk, expectedTasks, Nat.div_eq_of_lt (show P - 1 < P by omega)]
  | succ n ih =>
    intro l hl page cnt delay
    by_cases hnil : l = []
    · subst hnil
      rw [dispatchLoop]
      simp [envOk, expectedTasks, Nat.div_eq_of_lt (show P - 1 < P by omega)]
    · have hpos : 0 < l.length := List.length_pos.mpr hnil
      rw [dispatchLoop]
      have htake : ((l.take P).isEmpty = true) = False := by
        simp [List.isEmpty_iff, List.take_eq_nil_iff, hnil]
        omega
      have hpp := processPage_ok envOk k (l.take P) cnt delay (fun _ _ => rfl)
      simp only [envOk] at hpp
      simp only [envOk, Option.isSome_none, Bool.false_eq_true, if_false,
        htake, dite_false, hpp]
      have ihd := ih (l.drop P) (by simp [List.length_drop]; omega) (page + 1)
        (cnt + (l.take P).length) (delay + (l.take P).length * k)
      simp only [envOk] at ihd
      rw [ihd]
      simp only [SweepResult.mk.injEq, List.length_drop, and_true]
      refine ⟨?_, ?_⟩
      · rcases le_or_lt P l.length with hPl | hPl
        · have e1 : l.length - P + P - 1 = l.length - 1 := by omega
          have e2 : l.length + P - 1 = l.length - 1 + P := by omega
          rw [e1, e2, Nat.add_div_right _ hP]
          omega
        · have e1 : l.length - P + P - 1 = P - 1 := by omega
          have e2 : l.length + P - 1 = l.length - 1 + P := by omega
          rw [e1, e2, Nat.add_div_right _ hP,
            Nat.div_eq_of_lt (show P - 1 < P by omega),
            Nat.div_eq_of_lt (show l.length - 1 < P by omega)]
      · rw [← expectedTasks_append, List.take_append_drop]

/-- C5 counterexample: the sweep issues one more page query than
`ceil(N/P)`: with zero active users it still issues 1 query (the claim
predicts 0), and with one user at page size 1 it issues 2 (the claim
predicts 1), because the loop only terminates on a page that returns zero
rows. -/
theorem dispatch_pagination_cex :
    (handleUpdateUserGamificationScores envOk [] 5).queries = 1
    ∧ (List.length ([] : List UserRow) + 200 - 1) / 200 = 0
    ∧ (1 : Nat) ≠ 0
    ∧ (dispatchLoop envOk 1 5 [aliceRow] 0 0 0).queries = 2
    ∧ (List.length [aliceRow] + 1 - 1) / 1 = 1
    ∧ (2 : Nat) ≠ 1 := by
  refine ⟨?_, by norm_num, by norm_num, ?_, by norm_num, by norm_num⟩
  · show (dispatchLoop envOk 200 5 [] 0 0 0).queries = 1
    rw [dispatchLoop_ok 200 5 (by norm_num) 0 [] (le_refl _) 0 0 0]
    norm_num
  · rw [dispatchLoop_ok 1 5 (by norm_num) 1 [aliceRow] (le_refl _) 0 0 0]
    norm_num

/-- C5 (amended): a fault-free dispatch sweep over `N` active users with
page size `P > 0` issues exactly `ceil(N/P) + 1` page queries — terminating
on the final query, which returns zero rows — and enqueues exactly `N`
tasks whose `i`-th delay is `(i+1)·interval`, a strictly increasing
sequence whenever the interval is positive; the production entry point runs
this loop with `P = 200`. -/
theorem dispatch_pagination (P k : Nat) (hP : 0 < P) (l : List UserRow) :
    (dispatchLoop envOk P k l 0 0 0).err = none
    ∧ (dispatchLoop envOk P k l 0 0 0).queries = (l.length + P - 1) / P + 1
    ∧ (dispatchLoop envOk P k l 0 0 0).tasks.length = l.length
    ∧ (∀ i (hi : i < (dispatchLoop envOk P k l 0 0 0).tasks.length),
        ((dispatchLoop envOk P k l 0 0 0).tasks.get ⟨i, hi⟩).delay = (i + 1) * k)
    ∧ (0 < k → ∀ i j (hi : i < (dispatchLoop envOk P k l 0 0 0).tasks.length)
        (hj : j < (dispatchLoop envOk P k l 0 0 0).tasks.length), i < j →
        ((dispatchLoop envOk P k l 0 0 0).tasks.get ⟨i, hi⟩).delay
          < ((dispatchLoop envOk P k l 0 0 0).tasks.get ⟨j, hj⟩).delay)
    ∧ handleUpdateUserGamificationScores envOk l k
        = dispatchLoop envOk 200 k l 0 0 0 := by
  have hrun := dispatchLoop_ok P k hP l.length l (le_refl _) 0 0 0
  rw [hrun]
  refine ⟨rfl, rfl, expectedTasks_length k l 0, ?_, ?_, rfl⟩
  · intro i hi
    have := expectedTasks_get k l 0 i hi
    simpa using this
  · intro hk i j hi hj hij
    rw [expectedTasks_get k l 0 i hi, expectedTasks_get k l 0 j hj]
    simp only [Nat.zero_add]
    exact (Nat.mul_lt_mul_right hk).mpr (by omega)

/-- C5 witness: a three-user sweep with page size 2 and interval 5 issues
`ceil(3/2)+1 = 3` queries and enqueues 3 tasks. -/
theorem dispatch_pagination_witness :
    (dispatchLoop envOk 2 5 [aliceRow, bobRow, aliceRow] 0 0 0).queries = 3
    ∧ (dispatchLoop envOk 2 5 [aliceRow, bobRow, aliceRow] 0 0 0).tasks.length
        = 3 :=
  ⟨by rw [(dispatch_pagination 2 5 (by norm_num) [aliceRow, bobRow, aliceRow]).2.1]
      decide,
   by rw [(dispatch_pagination 2 5 (by norm_num) [aliceRow, bobRow, aliceRow]).2.2.1]
      decide⟩

/-- Helper: if the first injected fault of the sweep is a page-query
failure at page `page + p` (all earlier pages clean and full, no enqueue
faults), the loop returns that error after enqueueing exactly the `p·P`
users of the earlier pages. -/
theorem dispatchLoop_page_fail (env : DispatchEnv) (P k : Nat) (hP : 0 < P)
    (hq : ∀ c, env.enqueueErr c = none) :
    ∀ (p : Nat) (l : List UserRow) (page cnt delay : Nat) (e : DispatchErr),
    (∀ j, j < p → env.pageFetchErr (page + j) = none) →
    env.pageFetchErr (page + p) = some e →
    p * P ≤ l.length →
    (dispatchLoop env P k l page cnt delay).err = some e
      ∧ (dispatchLoop env P k l page cnt delay).tasks.length = p * P
      ∧ (dispatchLoop env P k l page cnt delay).queries = p + 1 := by
  intro p
  induction p with
  | zero =>
    intro l page cnt delay e hnone hsome hlen
    have h0 : env.pageFetchErr page = some e := by simpa using hsome
    rw [dispatchLoop, h0]
    exact ⟨rfl, by simp, rfl⟩
  | succ p ih =>
    intro l page cnt delay e hnone hsome hlen
    have h0 : env.pageFetchErr page = none := by
      simpa using hnone 0 (Nat.succ_pos p)
    have hmul : (p + 1) * P = p * P + P := by ring
    have hPl : P ≤ l.length := by
      calc P ≤ (p + 1) * P := Nat.le_mul_of_pos_left P (Nat.succ_pos p)
        _ ≤ l.length := hlen
    have hnil : l ≠ [] := by
      intro h
      rw [h] at hPl
      simp at hPl
      omega
    have htake : ((l.take P).isEmpty = true) = False := by
      simp [List.isEmpty_iff, List.take_eq_nil_iff, hnil]
      omega
    have htlen : (l.take P).length = P := by
      rw [List.length_take]
      omega
    have hpp := processPage_ok env k (l.take P) cnt delay
      (fun j _ => hq (cnt + j))
    have hrec := ih (l.drop P) (page + 1) (cnt + (l.take P).length)
      (delay + (l.take P).length * k) e
      (fun j hj => by
        have := hnone (j + 1) (Nat.succ_lt_succ hj)
        rwa [show page + (j + 1) = page + 1 + j by omega] at this)
      (by rwa [show page + (p + 1) = page + 1 + p by omega] at hsome)
      (by rw [List.length_drop]; omega)
    rw [htlen] at hpp hrec
    rw [dispatchLoop, h0]
    simp only [Option.isSome_none, Bool.false_eq_true, if_false, htake,
      dite_false, hpp]
    refine ⟨hrec.1, ?_, ?_⟩
    · simp only [List.length_append, expectedTasks_length, hrec.2.1, htlen]
      omega
    · rw [hrec.2.2]
      omega

/-- Helper: if the first injected fault of the sweep is an enqueue failure
at global enqueue index `c` (no page faults, all earlier enqueues clean),
the loop returns that error after enqueueing exactly `c` tasks. -/
theorem dispatchLoop_enqueue_fail (env : DispatchEnv) (P k : Nat) (hP : 0 < P)
    (hpage : ∀ q, env.pageFetchErr q = none) :
    ∀ (n : Nat) (l : List UserRow) (page cnt delay c : Nat) (e : DispatchErr),
    l.length ≤ n →
    c < l.length →
    (∀ j, j < c → env.enqueueErr (cnt + j) = none) →
    env.enqueueErr (cnt + c) = some e →
    (dispatchLoop env P k l page cnt delay).err = some e
      ∧ (dispatchLoop env P k l page cnt delay).tasks.length = c := by
  intro n
  induction n with
  | zero =>
    intro l page cnt delay c e hln hc
    omega
  | succ n ih =>
    intro l page cnt delay c e hln hc hnone hsome
    have hnil : l ≠ [] := by
      intro h
      rw [h] at hc
      simp at hc
    have htake : ((l.take P).isEmpty = true) = False := by
      simp [List.isEmpty_iff, List.take_eq_nil_iff, hnil]
      omega
    rw [dispatchLoop, hpage page]
    by_cases hcP : c < (l.take P).length
    · have hfail := processPage_fail env k (l.take P) cnt delay c e hcP
        hnone hsome
      have hsome2 : ((processPage env k (l.take P) cnt delay).err.isSome = true) := by
        rw [hfail.1]
        rfl
      simp only [Option.isSome_none, Bool.false_eq_true, if_false, htake,
        dite_false, hsome2, if_true]
      exact ⟨hfail.1, hfail.2⟩
    · have hlenP : (l.take P).length = min P l.length := List.length_take P l
      have hPl : P ≤ l.length := by omega
      have hPc : P ≤ c := by omega
      have htlen : (l.take P).length = P := by omega
      have hpp := processPage_ok env k (l.take P) cnt delay
        (fun j hj => hnone j (by omega))
      have hrec := ih (l.drop P) (page + 1) (cnt + (l.take P).length)
        (delay + (l.take P).length * k) (c - P) e
        (by rw [List.length_drop]; omega)
        (by rw [List.length_drop]; omega)
        (fun j hj => by
          have := hnone (P + j) (by omega)
          rwa [show cnt + (P + j) = cnt + (l.take P).length + j by omega] at this)
        (by
          have : cnt + (l.take P).length + (c - P) = cnt + c := by omega
          rwa [this])
      rw [htlen] at hpp hrec
      simp only [Option.isSome_none, Bool.false_eq_true, if_false, htake,
        dite_false, hpp]
      refine ⟨hrec.1, ?_⟩
      simp only [List.length_append, expectedTasks_length, hrec.2, htlen]
      omega

/-- C6: if a page query of the dispatch sweep fails (first fault, page `p`,
all earlier pages full), or a task enqueue fails (first fault, enqueue
index `c`), the dispatcher returns that error having enqueued only the
tasks that preceded the failure (`p·P`, resp. `c`) — it neither skips the
failing page or user nor continues with the remainder. -/
theorem dispatch_error_aborts (env : DispatchEnv) (P k : Nat) (hP : 0 < P)
    (l : List UserRow) :
    (∀ p e, (∀ j, j < p → env.pageFetchErr j = none) →
      env.pageFetchErr p = some e →
      (∀ c, env.enqueueErr c = none) →
      p * P ≤ l.length →
      (dispatchLoop env P k l 0 0 0).err = some e
        ∧ (dispatchLoop env P k l 0 0 0).tasks.length = p * P)
    ∧ (∀ c e, (∀ q, env.pageFetchErr q = none) →
      (∀ j, j < c → env.enqueueErr j = none) →
      env.enqueueErr c = some e →
      c < l.length →
      (dispatchLoop env P k l 0 0 0).err = some e
        ∧ (dispatchLoop env P k l 0 0 0).tasks.length = c) := by
  constructor
  · intro p e hnone hsome hq hlen
    have := dispatchLoop_page_fail env P k hP hq p l 0 0 0 e
      (fun j hj => by simpa using hnone j hj) (by simpa using hsome) hlen
    exact ⟨this.1, this.2.1⟩
  · intro c e hpage hnone hsome hc
    exact dispatchLoop_enqueue_fail env P k hP hpage l.length l 0 0 0 c e
      (le_refl _) hc (fun j hj => by simpa using hnone j hj)
      (by simpa using hsome)

/-- C6 witness: concrete two-user sweeps at page size 1: a page-1 failure
stops after the one task of page 0; an enqueue failure at index 1 stops
after one task. -/
theorem dispatch_error_aborts_witness :
    ((dispatchLoop ⟨fun p => if p = 1 then some ⟨9⟩ else none, fun _ => none⟩
        1 5 [aliceRow, bobRow] 0 0 0).err = some ⟨9⟩
      ∧ (dispatchLoop ⟨fun p => if p = 1 then some ⟨9⟩ else none, fun _ => none⟩
        1 5 [aliceRow, bobRow] 0 0 0).tasks.length = 1 * 1)
    ∧ ((dispatchLoop ⟨fun _ => none, fun c => if c = 1 then some ⟨8⟩ else none⟩
        1 5 [aliceRow, bobRow] 0 0 0).err = some ⟨8⟩
      ∧ (dispatchLoop ⟨fun _ => none, fun c => if c = 1 then some ⟨8⟩ else none⟩
        1 5 [aliceRow, bobRow] 0 0 0).tasks.length = 1) :=
  ⟨(dispatch_error_aborts
      ⟨fun p => if p = 1 then some ⟨9⟩ else none, fun _ => none⟩ 1 5
      (by norm_num) [aliceRow, bobRow]).1 1 ⟨9⟩
      (by intro j hj; have : j = 0 := by omega
          rw [this]
          rfl)
      (by rfl) (fun _ => rfl) (by simp),
   (dispatch_error_aborts
      ⟨fun _ => none, fun c => if c = 1 then some ⟨8⟩ else none⟩ 1 5
      (by norm_num) [aliceRow, bobRow]).2 1 ⟨8⟩ (fun _ => rfl)
      (by intro j hj; have : j = 0 := by omega
          rw [this]
          rfl)
      (by rfl) (by simp)⟩

/-- Helper: membership is preserved by the insertion step of the sort. -/
theorem mem_insertDesc (o a : Order) :
    ∀ l, a ∈ insertDesc o l ↔ a = o ∨ a ∈ l := by
  intro l
  induction l with
  | nil => simp [insertDesc]
  | cons x xs ih =>
    rw [insertDesc]
    by_cases hxo : x.createdAt ≤ o.createdAt
    · rw [if_pos hxo]
      simp [List.mem_cons]
    · rw [if_neg hxo]
      simp only [List.mem_cons, ih]
      tauto

/-- Helper: membership is preserved by the `ORDER BY created_at DESC`
model. -/
theorem mem_sortByCreatedAtDesc (a : Order) :
    ∀ l, a ∈ sortByCreatedAtDesc l ↔ a ∈ l := by
  intro l
  induction l with
  | nil => simp [sortByCreatedAtDesc]
  | cons x xs ih =>
    rw [show sortByCreatedAtDesc (x :: xs)
        = insertDesc x (sortByCreatedAtDesc xs) from rfl,
      mem_insertDesc]
    simp [List.mem_cons, ih]

/-- Helper: inserting into a list whose head dominates all members yields a
list whose head dominates all members. -/
theorem insertDesc_headGe (o : Order) (l : List Order)
    (hl : ∀ a ∈ l, ∃ b, l.head? = some b ∧ a.createdAt ≤ b.createdAt) :
    ∀ a ∈ insertDesc o l,
      ∃ b, (insertDesc o l).head? = some b ∧ a.createdAt ≤ b.createdAt := by
  cases l with
  | nil =>
    intro a ha
    simp only [insertDesc] at ha ⊢
    rcases List.mem_singleton.mp ha with rfl
    exact ⟨a, rfl, le_refl _⟩
  | cons x xs =>
    by_cases hxo : x.createdAt ≤ o.createdAt
    · rw [insertDesc, if_pos hxo]
      intro a ha
      refine ⟨o, rfl, ?_⟩
      rcases List.mem_cons.mp ha with rfl | ha2
      · exact le_refl _
      · rcases hl a ha2 with ⟨b, hb, hab⟩
        have hbx : b = x := by simpa using hb.symm
        exact le_trans hab (hbx ▸ hxo)
    · rw [insertDesc, if_neg hxo]
      intro a ha
      refine ⟨x, rfl, ?_⟩
      rcases List.mem_cons.mp ha with rfl | ha2
      · exact le_refl _
      · rcases (mem_insertDesc o a xs).mp ha2 with rfl | ha3
        · exact le_of_not_le hxo
        · rcases hl a (List.mem_cons_of_mem x ha3) with ⟨b, hb, hab⟩
          have hbx : b = x := by simpa using hb.symm
          exact hbx ▸ hab

/-- Helper: the head of the descending sort dominates every member. -/
theorem sortDesc_headGe (l : List Order) :
    ∀ a ∈ sortByCreatedAtDesc l,
      ∃ b, (sortByCreatedAtDesc l).head? = some b
        ∧ a.createdAt ≤ b.createdAt := by
  induction l with
  | nil => intro a ha; simp [sortByCreatedAtDesc] at ha
  | cons x xs ih =>
    rw [show sortByCreatedAtDesc (x :: xs)
        = insertDesc x (sortByCreatedAtDesc xs) from rfl]
    exact insertDesc_headGe x _ ih

/-- Helper: every row of the filtered base set is dominated by the head of
its descending sort. -/
theorem sortDesc_head_max (l : List Order) (a : Order) (ha : a ∈ l) :
    ∃ b, (sortByCreatedAtDesc l).head? = some b
      ∧ a.createdAt ≤ b.createdAt :=
  sortDesc_headGe l a ((mem_sortByCreatedAtDesc a l).mpr ha)

/-- Helper: the insertion step preserves descending-by-`createdAt`
sortedness. -/
theorem pairwise_insertDesc (o : Order) (l : List Order)
    (hl : List.Pairwise (fun a b => b.createdAt ≤ a.createdAt) l) :
    List.Pairwise (fun a b => b.createdAt ≤ a.createdAt) (insertDesc o l) := by
  induction l with
  | nil => simp [insertDesc]
  | cons x xs ih =>
    rw [List.pairwise_cons] at hl
    rw [insertDesc]
    by_cases hxo : x.createdAt ≤ o.createdAt
    · rw [if_pos hxo, List.pairwise_cons]
      refine ⟨?_, List.pairwise_cons.mpr hl⟩
      intro b hb
      rcases List.mem_cons.mp hb with rfl | hb2
      · exact hxo
      · exact le_trans (hl.1 b hb2) hxo
    · rw [if_neg hxo, List.pairwise_cons]
      refine ⟨?_, ih hl.2⟩
      intro b hb
      rcases (mem_insertDesc o b xs).mp hb with rfl | hb2
      · exact le_of_not_le hxo
      · exact hl.1 b hb2

/-- Helper: the `ORDER BY created_at DESC` model is sorted descending by
`createdAt`. -/
theorem pairwise_sortByCreatedAtDesc (l : List Order) :
    List.Pairwise (fun a b => b.createdAt ≤ a.createdAt)
      (sortByCreatedAtDesc l) := by
  induction l with
  | nil => simp [sortByCreatedAtDesc]
  | cons x xs ih =>
    rw [show sortByCreatedAtDesc (x :: xs)
        = insertDesc x (sortByCreatedAtDesc xs) from rfl]
    exact pairwise_insertDesc x _ ih

/-- C8: a requested page size of 0 or 101 is rejected with a validation
error before any datastore query executes (query count 0); every accepted
request runs its two queries and its returned page of Orders is ordered by
creation time descending (pairwise non-increasing `createdAt`); and for
page-1 no-filter requests the first returned row is at least as recent as
every order of the requester's filtered set. -/
theorem pagination_boundary :
    (∀ (db : List Order) (username : String) (req : TransactionListRequest),
      req.pageSize = 0 ∨ req.pageSize = 101 →
      listTransactions db username req = (.error .badRequest, 0))
    ∧ (∀ (db : List Order) (username : String) (req : TransactionListRequest),
      bindOK req = true →
      ∃ resp, listTransactions db username req = (.ok resp, 2)
        ∧ List.Pairwise (fun a b => b.createdAt ≤ a.createdAt) resp.orders)
    ∧ (∀ (db : List Order) (username : String) (ps : Int),
      1 ≤ ps → ps ≤ 100 →
      (listTransactions db username ⟨1, ps, "", "", none, none⟩).2 = 2
      ∧ ∀ o ∈ db.filter (matchesFilters username ⟨1, ps, "", "", none, none⟩),
        ∃ resp o₀,
          (listTransactions db username ⟨1, ps, "", "", none, none⟩).1
              = .ok resp
            ∧ resp.orders.head? = some o₀
            ∧ o.createdAt ≤ o₀.createdAt) := by
  refine ⟨?_, ?_, ?_⟩
  · intro db username req h
    have hb : bindOK req = false := by
      rcases h with h | h <;> simp [bindOK, h]
    simp [listTransactions, hb]
  · intro db username req hb
    refine ⟨⟨(db.filter (matchesFilters username req)).length, req.page,
        req.pageSize,
        (((sortByCreatedAtDesc (db.filter (matchesFilters username req))).drop
            ((req.page - 1) * req.pageSize).toNat).take
          req.pageSize.toNat).map Order.afterFind⟩, ?_, ?_⟩
    · simp [listTransactions, hb]
    · have hp := pairwise_sortByCreatedAtDesc
        (db.filter (matchesFilters username req))
      have hsub := (List.take_sublist req.pageSize.toNat
          ((sortByCreatedAtDesc (db.filter (matchesFilters username req))).drop
            ((req.page - 1) * req.pageSize).toNat)).trans
        (List.drop_sublist ((req.page - 1) * req.pageSize).toNat
          (sortByCreatedAtDesc (db.filter (matchesFilters username req))))
      exact List.pairwise_map.mpr (hp.sublist hsub)
  · intro db username ps h1 h100
    have hb : bindOK ⟨1, ps, "", "", none, none⟩ = true := by
      simp only [bindOK]
      simp
      omega
    have hoffset : ((1 - 1 : Int) * ps).toNat = 0 := by norm_num
    have hlist : listTransactions db username ⟨1, ps, "", "", none, none⟩
        = (.ok ⟨(db.filter (matchesFilters username ⟨1, ps, "", "", none, none⟩)).length,
                1, ps,
                ((sortByCreatedAtDesc
                    (db.filter (matchesFilters username
                      ⟨1, ps, "", "", none, none⟩))).take ps.toNat).map
                  Order.afterFind⟩, 2) := by
      simp [listTransactions, hb, hoffset, List.drop_zero]
    refine ⟨by rw [hlist], ?_⟩
    intro o ho
    obtain ⟨b, hhead, hob⟩ := sortDesc_head_max _ o ho
    obtain ⟨m, hm⟩ : ∃ m, ps.toNat = m + 1 := ⟨ps.toNat - 1, by omega⟩
    cases hsort : sortByCreatedAtDesc
        (db.filter (matchesFilters username ⟨1, ps, "", "", none, none⟩)) with
    | nil =>
      rw [hsort] at hhead
      simp at hhead
    | cons b2 t =>
      rw [hsort] at hhead
      have hb2 : b2 = b := by simpa using hhead
      refine ⟨_, Order.afterFind b, by rw [hlist], ?_, hob⟩
      rw [hsort, hm, List.take_succ_cons, List.map_cons, hb2]
      rfl

/-- C8 witness: page size 0 is rejected with zero queries on a concrete
table; an accepted page-1 request over that table runs 2 queries, returns
a page sorted descending by creation time, and its first returned row is
at least as recent as the requester's latest order. -/
theorem pagination_boundary_witness :
    listTransactions sampleDB "alice" ⟨1, 0, "", "", none, none⟩
        = (.error .badRequest, 0)
    ∧ (∃ resp, listTransactions sampleDB "alice" ⟨1, 10, "", "", none, none⟩
          = (.ok resp, 2)
        ∧ List.Pairwise (fun a b => b.createdAt ≤ a.createdAt) resp.orders)
    ∧ (listTransactions sampleDB "alice" ⟨1, 10, "", "", none, none⟩).2 = 2
    ∧ ∃ resp o₀,
        (listTransactions sampleDB "alice" ⟨1, 10, "", "", none, none⟩).1
            = .ok resp
          ∧ resp.orders.head? = some o₀
          ∧ sampleOrderNew.createdAt ≤ o₀.createdAt :=
  ⟨pagination_boundary.1 sampleDB "alice" ⟨1, 0, "", "", none, none⟩ (Or.inl rfl),
   pagination_boundary.2.1 sampleDB "alice" ⟨1, 10, "", "", none, none⟩
     (by decide),
   (pagination_boundary.2.2 sampleDB "alice" 10 (by norm_num) (by norm_num)).1,
   (pagination_boundary.2.2 sampleDB "alice" 10 (by norm_num) (by norm_num)).2
     sampleOrderNew
     (List.mem_filter.mpr ⟨by simp [sampleDB], by decide⟩)⟩

end Pay
